import Mathlib

/-
Shallow embedding of the KDG forensic timeline analyser, file
src/assets/Analyser.py: CSV loading with column validation and time
coercion, consolidation of raw timestamp events into one record per path
(build_file_table), and anomaly detection over the consolidated records
(detect). Absolute UTC instants are embedded as integer nanoseconds since
the epoch, the unit of the pandas datetime64 values the source manipulates;
a time that pandas to_datetime could not parse (NaT) is embedded as none.
-/

/-- RawEvent models one row of timeline.csv after the coercions performed by
load_csv: the time column is parsed to an instant in integer nanoseconds
(none when pandas to_datetime with errors coerce yields NaT), the deleted
column is parsed to a boolean, and the remaining columns are carried through
as strings. The source column named type is rendered here as etype because
type is a reserved word in Lean. -/
structure RawEvent where
  time : Option Int
  etype : String
  path : String
  partition : String
  inode : String
  size : String
  deleted : Bool
deriving DecidableEq

/-- FileRecord models one row of the consolidated per-path table built by
build_file_table. The Python record is a dict with five fixed lowercase
identity keys plus one dynamically added key per uppercased event type seen
for the path; tfields is that dynamic part, an insertion-ordered association
list updated with last-write-wins semantics like a Python dict. An
uppercased type key can never collide with the lowercase identity keys, so
splitting the dict this way loses nothing. flags and suspicious are filled
in later by detect and default to their pre-detection values. -/
structure FileRecord where
  path : String
  partition : String
  inode : String
  size : String
  deleted : Bool
  tfields : List (String × Int) := []
  flags : List String := []
  suspicious : Bool := false
deriving DecidableEq

/-- Assignment of a dynamic key, modelling the Python statement that stores
a value under key k in the record dict: replace the value in place when the
key is present, otherwise append the binding at the end. -/
def setField : List (String × Int) → String → Int → List (String × Int)
  | [], k, v => [(k, v)]
  | (k1, v1) :: rest, k, v =>
      if k1 = k then (k, v) :: rest else (k1, v1) :: setField rest k v

/-- Lookup of a dynamic key, modelling the Python expression r.get(k):
some value when the key is present, none otherwise. -/
def getField : List (String × Int) → String → Option Int
  | [], _ => none
  | (k1, v1) :: rest, k => if k1 = k then some v1 else getField rest k

/-- ASCII uppercase of one character, the semantics the source relies on:
its event types are plain ASCII words. -/
def upperChar (c : Char) : Char :=
  if c ≥ 'a' ∧ c ≤ 'z' then Char.ofNat (c.toNat - 32) else c

/-- The Python expression str(x).upper() on the type cell, realised
characterwise by upperChar. -/
def upperString (s : String) : String :=
  ⟨s.data.map upperChar⟩

/-- One iteration of the inner loop of build_file_table: when the event time
is not NaT, store the time under the uppercased event type; otherwise leave
the record unchanged. -/
def applyEvent (m : List (String × Int)) (e : RawEvent) : List (String × Int) :=
  match e.time with
  | some t => setField m (upperString e.etype) t
  | none => m

/-- The inner loop of build_file_table over the events of one path group in
processing order, starting from dynamic part m. -/
def buildTfieldsFrom (m : List (String × Int)) : List RawEvent → List (String × Int)
  | [] => m
  | e :: rest => buildTfieldsFrom (applyEvent m e) rest

/-- Dynamic timestamp fields accumulated over one whole path group. -/
def buildTfields (g : List RawEvent) : List (String × Int) :=
  buildTfieldsFrom [] g

/-- Consolidation of one path group g, the events of path p in processing
order: the identity fields are seeded from the first event of the group via
iloc zero, the timestamp fields come from the inner loop. On an empty group
the result is none; groupby never produces an empty group, so
build_file_table below never hits that branch. -/
def buildRecord (p : String) (g : List RawEvent) : Option FileRecord :=
  match g with
  | [] => none
  | e0 :: _ =>
      some { path := p, partition := e0.partition, inode := e0.inode,
             size := e0.size, deleted := e0.deleted, tfields := buildTfields g }

/-- Distinct elements of a list, first occurrence kept, in order of first
occurrence. pandas groupby emits the same group keys sorted instead; the two
orders enumerate the same keys and only permute the output rows, and no
property below depends on row order. -/
def dedupFirst : List String → List String
  | [] => []
  | p :: rest => p :: (dedupFirst rest).filter (fun q => q != p)

/-- build_file_table of Analyser.py: group the events by path, with
dropna False so every path key forms a group, and collapse every group to
one FileRecord. -/
def build_file_table (events : List RawEvent) : List FileRecord :=
  (dedupFirst (events.map (fun e => e.path))).filterMap
    (fun p => buildRecord p (events.filter (fun e => e.path == p)))

/-- Two seconds expressed in the nanosecond unit of the embedded instants:
the threshold timedelta of the rapid-activity rule. -/
def twoSeconds : Int := 2000000000

/-- Maximum of a list of instants, as the Python builtin max over a
nonempty list; the zero returned on an empty list is never used because
every call site guards on a length of at least three. -/
def listMax : List Int → Int
  | [] => 0
  | x :: xs => xs.foldl max x

/-- Minimum of a list of instants, as the Python builtin min over a
nonempty list, with the same unused empty-list convention as listMax. -/
def listMin : List Int → Int
  | [] => 0
  | x :: xs => xs.foldl min x

/-- The four timestamp values read by detect, in source order CRTIME,
ATIME, MTIME, CTIME, with the absent ones filtered out, as the list
comprehension guarded by notna in the source. -/
def presentTimes (r : FileRecord) : List Int :=
  List.filterMap id
    [getField r.tfields "CRTIME", getField r.tfields "ATIME",
     getField r.tfields "MTIME", getField r.tfields "CTIME"]

/-- Rule one of detect: access before creation. -/
def flag1 (r : FileRecord) : List String :=
  match getField r.tfields "CRTIME", getField r.tfields "ATIME" with
  | some cv, some av => if av < cv then ["Access before creation"] else []
  | _, _ => []

/-- Rule two of detect: modification before creation. -/
def flag2 (r : FileRecord) : List String :=
  match getField r.tfields "CRTIME", getField r.tfields "MTIME" with
  | some cv, some mv => if mv < cv then ["Modified before creation"] else []
  | _, _ => []

/-- Rule three of detect: rapid timestamp activity, two nested conditions as
in the source. -/
def flag3 (r : FileRecord) : List String :=
  if 3 ≤ (presentTimes r).length then
    if listMax (presentTimes r) - listMin (presentTimes r) < twoSeconds then
      ["Rapid timestamp activity (<2s)"]
    else []
  else []

/-- Rule four of detect: deleted file accessed. -/
def flag4 (r : FileRecord) : List String :=
  if r.deleted then
    match getField r.tfields "ATIME" with
    | some _ => ["Deleted file accessed"]
    | none => []
  else []

/-- Flag list of one record: the four rules append in source order, so the
final list is their concatenation. -/
def recordFlags (r : FileRecord) : List String :=
  flag1 r ++ flag2 r ++ flag3 r ++ flag4 r

/-- detect of Analyser.py on one record: compute the flags by the four
rules, then set suspicious to whether the flag list has positive length. -/
def detectRecord (r : FileRecord) : FileRecord :=
  { r with flags := recordFlags r,
           suspicious := decide (0 < (recordFlags r).length) }

/-- detect of Analyser.py over the whole consolidated table: every record is
annotated independently. -/
def detect (records : List FileRecord) : List FileRecord :=
  records.map detectRecord

/-- Required columns of timeline.csv, in the order load_csv checks them. -/
def required : List String :=
  ["time", "type", "path", "partition", "inode", "size", "deleted"]

/-- CsvFile models the tabular form of timeline.csv as pandas read_csv
presents it: a header naming the columns, and rows of cells aligned with the
header. -/
structure CsvFile where
  header : List String
  rows : List (List String)

/-- Cell of a row under a named column: the cell at the position the column
holds in the header, none when the column or the cell is absent. -/
def getCell (header row : List String) (col : String) : Option String :=
  (header.findIdx? (fun c => c == col)).bind (fun i => row.get? i)

/-- Boolean coercion of the deleted column performed by load_csv: lowercase
the cell text and test membership in true, 1, yes. -/
def parseDeleted (s : String) : Bool :=
  ["true", "1", "yes"].contains s.toLower

/-- One row of the CSV turned into a RawEvent. The time cell is parsed by
the given parseTime function, which stands for pandas to_datetime with
errors coerce: none models NaT. A missing cell defaults to the empty
string, a case no claim below depends on. -/
def parseRow (parseTime : String → Option Int) (header row : List String) :
    RawEvent :=
  { time := (getCell header row "time").bind parseTime
  , etype := (getCell header row "type").getD ""
  , path := (getCell header row "path").getD ""
  , partition := (getCell header row "partition").getD ""
  , inode := (getCell header row "inode").getD ""
  , size := (getCell header row "size").getD ""
  , deleted := parseDeleted ((getCell header row "deleted").getD "") }

/-- Order used by sort_values on the time column: ascending instants, NaT
placed last. -/
def timeLe : Option Int → Option Int → Bool
  | none, none => true
  | none, some _ => false
  | some _, none => true
  | some t1, some t2 => t1 ≤ t2

/-- Insertion step of the sort on the time column. -/
def insertByTime (e : RawEvent) : List RawEvent → List RawEvent
  | [] => [e]
  | x :: xs =>
      if timeLe e.time x.time then e :: x :: xs else x :: insertByTime e xs

/-- sort_values on the time column. The source uses the pandas default
sort, which leaves the order of ties unspecified; this embedding realises
one admissible order and no claim below depends on tie order. -/
def sortByTime : List RawEvent → List RawEvent
  | [] => []
  | e :: rest => insertByTime e (sortByTime rest)

/-- load_csv of Analyser.py after the file has been read into a header and
rows: check every required column in order and fail with a message naming
the first missing one, modelling the print and exit of the source; otherwise
coerce the time and deleted columns of every row and sort by time. A row
whose time fails to parse is kept, with time none. -/
def load_csv (parseTime : String → Option Int) (csv : CsvFile) :
    Except String (List RawEvent) :=
  match required.find? (fun c => ! csv.header.contains c) with
  | some c => Except.error ("Missing column: " ++ c)
  | none => Except.ok (sortByTime (csv.rows.map (parseRow parseTime csv.header)))

/-- Valid events in the sense of the specification: events whose time
parsed. This definition follows the words of the spec, not the source, and
exists only to state the grouping claims against the source behaviour. -/
def validEvents (evs : List RawEvent) : List RawEvent :=
  evs.filter (fun e => e.time.isSome)

/-- Specification reading of last-write-wins, following the words of the
spec: the time of the most recently processed event whose uppercased type
equals k and whose time parsed, none when there is no such event. -/
def mostRecentKindTime (k : String) : List RawEvent → Option Int
  | [] => none
  | e :: rest =>
      match mostRecentKindTime k rest with
      | some t => some t
      | none =>
          match e.time with
          | some t => if upperString e.etype = k then some t else none
          | none => none

/-- The four timestamp keys read by detect. -/
def timestampKinds : List String := ["CRTIME", "ATIME", "MTIME", "CTIME"]

/-- Lookup after assignment at the same key yields the assigned value. -/
theorem getField_setField_self (m : List (String × Int)) (k : String) (v : Int) :
    getField (setField m k v) k = some v := by
  induction m with
  | nil => simp [setField, getField]
  | cons hd tl ih =>
      obtain ⟨k1, v1⟩ := hd
      by_cases h : k1 = k
      · simp [setField, getField, h]
      · simp [setField, getField, h, ih]

/-- Lookup after assignment at a different key is unchanged. -/
theorem getField_setField_ne (m : List (String × Int)) (k k2 : String) (v : Int)
    (h : k ≠ k2) : getField (setField m k2 v) k = getField m k := by
  induction m with
  | nil => simp [setField, getField, Ne.symm h]
  | cons hd tl ih =>
      obtain ⟨k1, v1⟩ := hd
      by_cases h1 : k1 = k2
      · simp [setField, getField, h1, Ne.symm h]
      · simp [setField, getField, h1, ih]

/-- Running the inner loop over the concatenation of two lists is running it
over the first and then the second. -/
theorem buildTfieldsFrom_append (m : List (String × Int)) (l1 l2 : List RawEvent) :
    buildTfieldsFrom m (l1 ++ l2) = buildTfieldsFrom (buildTfieldsFrom m l1) l2 := by
  induction l1 generalizing m with
  | nil => rfl
  | cons e rest ih => simp [buildTfieldsFrom, ih]

/-- The value the inner loop leaves at key k depends on the starting record
only through the starting value at k. -/
theorem getField_buildTfieldsFrom_congr (k : String) (g : List RawEvent) :
    ∀ m1 m2, getField m1 k = getField m2 k →
      getField (buildTfieldsFrom m1 g) k = getField (buildTfieldsFrom m2 g) k := by
  induction g with
  | nil => intro m1 m2 h; simpa [buildTfieldsFrom] using h
  | cons e rest ih =>
      intro m1 m2 h
      refine ih _ _ ?_
      cases he : e.time with
      | none => simpa [applyEvent, he] using h
      | some t =>
          by_cases hk : upperString e.etype = k
          · simp [applyEvent, he, hk, getField_setField_self]
          · simp [applyEvent, he,
                  getField_setField_ne _ _ _ _ (Ne.symm hk), h]

/-- The value the inner loop leaves at key k is the most recent valid event
of kind k when one exists, and the starting value at k otherwise. -/
theorem getField_buildTfieldsFrom_eq (k : String) (g : List RawEvent) :
    ∀ m, getField (buildTfieldsFrom m g) k =
      match mostRecentKindTime k g with
      | some t => some t
      | none => getField m k := by
  induction g with
  | nil => intro m; simp [buildTfieldsFrom, mostRecentKindTime]
  | cons e rest ih =>
      intro m
      rw [buildTfieldsFrom, ih]
      cases hr : mostRecentKindTime k rest with
      | some t => simp [mostRecentKindTime, hr]
      | none =>
          cases he : e.time with
          | none => simp [mostRecentKindTime, hr, he, applyEvent]
          | some t =>
              by_cases hk : upperString e.etype = k
              · simp [mostRecentKindTime, hr, he, hk, applyEvent,
                      getField_setField_self]
              · simp [mostRecentKindTime, hr, he, hk, applyEvent,
                      getField_setField_ne _ _ _ _ (Ne.symm hk)]

/-- The consolidated value at key k over a whole group is exactly the most
recent valid event of kind k. -/
theorem getField_buildTfields (k : String) (g : List RawEvent) :
    getField (buildTfields g) k = mostRecentKindTime k g := by
  rw [buildTfields, getField_buildTfieldsFrom_eq]
  cases mostRecentKindTime k g <;> simp [getField]

/-- Rule one produces either nothing or its single label. -/
theorem flag1_shape (r : FileRecord) :
    flag1 r = [] ∨ flag1 r = ["Access before creation"] := by
  rw [flag1]
  rcases getField r.tfields "CRTIME" with _ | cv <;>
    rcases getField r.tfields "ATIME" with _ | av <;> simp
  exact le_or_lt cv av

/-- Rule two produces either nothing or its single label. -/
theorem flag2_shape (r : FileRecord) :
    flag2 r = [] ∨ flag2 r = ["Modified before creation"] := by
  rw [flag2]
  rcases getField r.tfields "CRTIME" with _ | cv <;>
    rcases getField r.tfields "MTIME" with _ | mv <;> simp
  exact le_or_lt cv mv

/-- Rule three produces either nothing or its single label. -/
theorem flag3_shape (r : FileRecord) :
    flag3 r = [] ∨ flag3 r = ["Rapid timestamp activity (<2s)"] := by
  rw [flag3]
  split_ifs <;> simp

/-- Rule four produces either nothing or its single label. -/
theorem flag4_shape (r : FileRecord) :
    flag4 r = [] ∨ flag4 r = ["Deleted file accessed"] := by
  rw [flag4]
  split_ifs
  · rcases getField r.tfields "ATIME" with _ | av <;> simp
  · simp

/-- Membership of the rapid-activity label in rule three is exactly the
condition of the rule. -/
theorem mem_flag3_iff (r : FileRecord) :
    "Rapid timestamp activity (<2s)" ∈ flag3 r ↔
      (3 ≤ (presentTimes r).length ∧
        listMax (presentTimes r) - listMin (presentTimes r) < twoSeconds) := by
  rw [flag3]
  split_ifs <;> simp_all

/-- The rapid-activity label is not produced by rule one. -/
theorem rapid_not_mem_flag1 (r : FileRecord) :
    ¬ "Rapid timestamp activity (<2s)" ∈ flag1 r := by
  rcases flag1_shape r with h | h <;> rw [h] <;> decide

/-- The rapid-activity label is not produced by rule two. -/
theorem rapid_not_mem_flag2 (r : FileRecord) :
    ¬ "Rapid timestamp activity (<2s)" ∈ flag2 r := by
  rcases flag2_shape r with h | h <;> rw [h] <;> decide

/-- The rapid-activity label is not produced by rule four. -/
theorem rapid_not_mem_flag4 (r : FileRecord) :
    ¬ "Rapid timestamp activity (<2s)" ∈ flag4 r := by
  rcases flag4_shape r with h | h <;> rw [h] <;> decide

/-- C3: the detector appends the flag Rapid timestamp activity (<2s) to a
record exactly when at least 3 of the 4 timestamp fields CRTIME, ATIME,
MTIME, CTIME are present and the maximum of the present timestamps minus
their minimum is strictly below two seconds; in particular a spread of
exactly two seconds is not flagged, the comparison being strict. -/
theorem rapid_activity_flag_iff (r : FileRecord) :
    ("Rapid timestamp activity (<2s)" ∈ (detectRecord r).flags) ↔
      (3 ≤ (presentTimes r).length ∧
        listMax (presentTimes r) - listMin (presentTimes r) < twoSeconds) := by
  show ("Rapid timestamp activity (<2s)" ∈ recordFlags r) ↔ _
  rw [recordFlags]
  simp [List.mem_append, rapid_not_mem_flag1 r, rapid_not_mem_flag2 r,
        rapid_not_mem_flag4 r, mem_flag3_iff r]

/-- Membership of the access-before-creation label in rule one is exactly
the condition of the rule. -/
theorem mem_flag1_iff (r : FileRecord) :
    "Access before creation" ∈ flag1 r ↔
      ∃ cv av, getField r.tfields "CRTIME" = some cv ∧
        getField r.tfields "ATIME" = some av ∧ av < cv := by
  rw [flag1]
  rcases hc : getField r.tfields "CRTIME" with _ | cv <;>
    rcases ha : getField r.tfields "ATIME" with _ | av
  · simp
  · simp
  · simp
  · by_cases hlt : av < cv <;> simp [hlt]

/-- The access-before-creation label is not produced by rule two. -/
theorem access_not_mem_flag2 (r : FileRecord) :
    ¬ "Access before creation" ∈ flag2 r := by
  rcases flag2_shape r with h | h <;> rw [h] <;> decide

/-- The access-before-creation label is not produced by rule three. -/
theorem access_not_mem_flag3 (r : FileRecord) :
    ¬ "Access before creation" ∈ flag3 r := by
  rcases flag3_shape r with h | h <;> rw [h] <;> decide

/-- The access-before-creation label is not produced by rule four. -/
theorem access_not_mem_flag4 (r : FileRecord) :
    ¬ "Access before creation" ∈ flag4 r := by
  rcases flag4_shape r with h | h <;> rw [h] <;> decide

/-- C4: the detector appends the flag Access before creation to a record
exactly when both CRTIME and ATIME are present and ATIME is strictly
earlier than CRTIME; when the two are equal, or either is absent, the flag
is not appended, the comparison being strict. -/
theorem access_before_creation_flag_iff (r : FileRecord) :
    ("Access before creation" ∈ (detectRecord r).flags) ↔
      ∃ cv av, getField r.tfields "CRTIME" = some cv ∧
        getField r.tfields "ATIME" = some av ∧ av < cv := by
  show ("Access before creation" ∈ recordFlags r) ↔ _
  rw [recordFlags]
  simp [List.mem_append, access_not_mem_flag2 r, access_not_mem_flag3 r,
        access_not_mem_flag4 r, mem_flag1_iff r]

/-- C7: after detection, suspicious holds on a record exactly when its flag
list is nonempty. -/
theorem suspicious_iff_flags_nonempty (r : FileRecord) :
    (detectRecord r).suspicious = true ↔ (detectRecord r).flags ≠ [] := by
  show decide (0 < (recordFlags r).length) = true ↔ recordFlags r ≠ []
  rw [decide_eq_true_iff, List.length_pos]

/-- Annotating one record twice is the same as annotating it once: the
rules read only the timestamp and identity fields, which detection never
changes. -/
theorem detectRecord_idem (r : FileRecord) :
    detectRecord (detectRecord r) = detectRecord r := rfl

/-- C8: detection is idempotent on the whole consolidated table; running
detect twice yields exactly the flags and suspicious values of running it
once. -/
theorem detection_idempotent (records : List FileRecord) :
    detect (detect records) = detect records := by
  induction records with
  | nil => rfl
  | cons r rest ih =>
      show detectRecord (detectRecord r) :: detect (detect rest) =
        detectRecord r :: detect rest
      rw [detectRecord_idem, ih]

/-- C9: the flag list detection produces has at most four entries and no
repeated entry: each rule appends at most one flag and the four labels are
pairwise distinct. -/
theorem flags_bounded_and_distinct (r : FileRecord) :
    (detectRecord r).flags.length ≤ 4 ∧ (detectRecord r).flags.Nodup := by
  show (recordFlags r).length ≤ 4 ∧ (recordFlags r).Nodup
  rcases flag1_shape r with h1 | h1 <;> rcases flag2_shape r with h2 | h2 <;>
    rcases flag3_shape r with h3 | h3 <;> rcases flag4_shape r with h4 | h4 <;>
    rw [recordFlags, h1, h2, h3, h4] <;> decide

/-- Membership in the deduplicated path list implies membership in the
original list. -/
theorem mem_of_mem_dedupFirst {p : String} {l : List String}
    (h : p ∈ dedupFirst l) : p ∈ l := by
  induction l with
  | nil => simp [dedupFirst] at h
  | cons a rest ih =>
      rw [dedupFirst] at h
      rcases List.mem_cons.mp h with h | h
      · simp [h]
      · exact List.mem_cons_of_mem _ (ih (List.mem_filter.mp h).1)

/-- A filterMap whose function succeeds on every element preserves length. -/
theorem length_filterMap_of_isSome {α β : Type} (f : α → Option β)
    (l : List α) (h : ∀ x ∈ l, (f x).isSome) :
    (l.filterMap f).length = l.length := by
  induction l with
  | nil => rfl
  | cons a rest ih =>
      have ha := h a (List.mem_cons_self a rest)
      cases hf : f a with
      | none => rw [hf] at ha; simp at ha
      | some b =>
          simp [List.filterMap_cons, hf,
                ih (fun x hx => h x (List.mem_cons_of_mem _ hx))]

/-- C1 amended: the number of FileRecords build_file_table produces equals
the number of distinct path values among all events, valid or not; groupby
with dropna False groups every event, so a path whose events all have
unparseable times still yields a FileRecord. -/
theorem grouping_counts_all_paths (evs : List RawEvent) :
    (build_file_table evs).length =
      (dedupFirst (evs.map (fun e => e.path))).length := by
  rw [build_file_table]
  apply length_filterMap_of_isSome
  intro p hp
  obtain ⟨e, he, hpe⟩ := List.mem_map.mp (mem_of_mem_dedupFirst hp)
  have hmem : e ∈ evs.filter (fun x => x.path == p) := by
    rw [List.mem_filter]
    exact ⟨he, by simp [hpe]⟩
  cases hfil : evs.filter (fun x => x.path == p) with
  | nil => rw [hfil] at hmem; simp at hmem
  | cons e0 tl => simp [buildRecord, hfil]

/-- A concrete raw event whose time failed to parse. -/
def badEvent : RawEvent :=
  { time := none, etype := "CRTIME", path := "p1", partition := "P0",
    inode := "5", size := "10", deleted := false }

/-- C1 counterexample: on the single event badEvent, whose time is
unparseable, consolidation produces one FileRecord while the number of
distinct paths among valid events is zero, refuting the claim that the two
counts agree for every event sequence. -/
theorem grouping_claim_fails_on_invalid_time :
    ¬ ((build_file_table [badEvent]).length =
        (dedupFirst ((validEvents [badEvent]).map (fun e => e.path))).length) := by
  decide

/-- C2 counterexample: the event badEvent has an unparseable time, yet it is
not discarded before consolidation: the table built from it differs from the
table built from the valid events alone, and its partition value is copied
into the produced FileRecord. -/
theorem invalid_event_not_discarded :
    badEvent.time = none ∧
    build_file_table [badEvent] ≠ build_file_table (validEvents [badEvent]) ∧
    (build_file_table [badEvent]).map (fun r => r.partition) =
      [badEvent.partition] := by
  decide

/-- C2 amended: a raw event whose time is unparseable contributes to no
timestamp field of any FileRecord, wherever it sits in its group, but it is
not discarded: as the first event of its path group it still produces the
FileRecord and seeds partition, inode, size and deleted. -/
theorem invalid_time_event_kept_without_timestamps
    (p : String) (g l1 l2 : List RawEvent) (e : RawEvent)
    (h : e.time = none) :
    buildTfields (l1 ++ e :: l2) = buildTfields (l1 ++ l2) ∧
    buildRecord p (e :: g) =
      some { path := p, partition := e.partition, inode := e.inode,
             size := e.size, deleted := e.deleted, tfields := buildTfields g } := by
  constructor
  · rw [buildTfields, buildTfields, buildTfieldsFrom_append,
        buildTfieldsFrom_append, buildTfieldsFrom, applyEvent, h]
  · rw [buildRecord]
    rw [buildTfields, buildTfieldsFrom, applyEvent, h, ← buildTfields]

/-- Witness for the amended C2 theorem at the concrete event badEvent. -/
theorem invalid_time_event_kept_without_timestamps_w :
    buildTfields ([] ++ badEvent :: []) = buildTfields ([] ++ []) ∧
    buildRecord "p1" [badEvent] =
      some { path := "p1", partition := "P0", inode := "5", size := "10",
             deleted := false, tfields := buildTfields [] } :=
  invalid_time_event_kept_without_timestamps "p1" [] [] [] badEvent rfl

/-- Inversion of buildRecord on a successful group: the record carries the
group path and the consolidated timestamp fields of the group. -/
theorem buildRecord_some_inv (p : String) (g : List RawEvent) (r : FileRecord)
    (h : buildRecord p g = some r) :
    r.path = p ∧ r.tfields = buildTfields g := by
  cases g with
  | nil => simp [buildRecord] at h
  | cons e0 tl =>
      rw [buildRecord] at h
      rw [← Option.some.inj h]
      exact ⟨rfl, rfl⟩

/-- C6: consolidation is last-write-wins; for every FileRecord the table
contains and every key, the consolidated timestamp field at that key is the
time of the most recently processed valid event of that kind for the path
of the record, each assignment overwriting any prior value. -/
theorem timestamp_last_write_wins (evs : List RawEvent) (r : FileRecord)
    (h : r ∈ build_file_table evs) (k : String) :
    getField r.tfields k =
      mostRecentKindTime k (evs.filter (fun e => e.path == r.path)) := by
  rw [build_file_table] at h
  obtain ⟨p, hp, hr⟩ := List.mem_filterMap.mp h
  obtain ⟨hpath, htf⟩ := buildRecord_some_inv _ _ _ hr
  rw [htf, hpath, getField_buildTfields]

/-- Two events of the same kind for the same path, with distinct times, used
to witness last-write-wins. -/
def crEventEarly : RawEvent :=
  { time := some 5, etype := "crtime", path := "p1", partition := "P0",
    inode := "5", size := "10", deleted := false }

/-- The later duplicate of crEventEarly. -/
def crEventLate : RawEvent :=
  { time := some 9, etype := "CRTIME", path := "p1", partition := "P0",
    inode := "5", size := "10", deleted := false }

/-- The FileRecord consolidation produces for the duplicate pair: the later
time 9 has overwritten the earlier time 5. -/
def dupRecord : FileRecord :=
  { path := "p1", partition := "P0", inode := "5", size := "10",
    deleted := false, tfields := [("CRTIME", 9)] }

/-- Witness for the last-write-wins theorem on the duplicate pair. -/
theorem timestamp_last_write_wins_w :
    getField dupRecord.tfields "CRTIME" =
      mostRecentKindTime "CRTIME"
        ([crEventEarly, crEventLate].filter (fun e => e.path == dupRecord.path)) :=
  timestamp_last_write_wins [crEventEarly, crEventLate] dupRecord (by decide)
    "CRTIME"

/-- C5: when a required column is absent from the header, load_csv fails
before any row is parsed or any record is built, and the failure message
names a specific missing required column. -/
theorem missing_column_fails_fast (parseTime : String → Option Int)
    (csv : CsvFile) (c : String) (h1 : c ∈ required)
    (h2 : ¬ c ∈ csv.header) :
    ∃ c2, c2 ∈ required ∧ ¬ c2 ∈ csv.header ∧
      load_csv parseTime csv = Except.error ("Missing column: " ++ c2) := by
  have hp : (required.find? (fun x => ! csv.header.contains x)).isSome := by
    rw [List.find?_isSome]
    exact ⟨c, h1, by simp [h2]⟩
  obtain ⟨c2, hc2⟩ := Option.isSome_iff_exists.mp hp
  refine ⟨c2, List.mem_of_find?_eq_some hc2, ?_, ?_⟩
  · have := List.find?_some hc2
    simp at this
    exact this
  · rw [load_csv, hc2]

/-- A concrete header missing the path column. -/
def csvMissingPath : CsvFile :=
  { header := ["time", "type", "partition", "inode", "size", "deleted"],
    rows := [] }

/-- Witness for the missing-column theorem on a header without path. -/
theorem missing_column_fails_fast_w :
    ∃ c2, c2 ∈ required ∧ ¬ c2 ∈ csvMissingPath.header ∧
      load_csv (fun _ => none) csvMissingPath =
        Except.error ("Missing column: " ++ c2) :=
  missing_column_fails_fast (fun _ => none) csvMissingPath "path" (by decide)
    (by decide)

/-- C10: an event whose uppercased type is none of CRTIME, ATIME, MTIME,
CTIME sets none of the four timestamp fields read by detection, wherever it
sits in its group, and consolidation raises no error on it: as the first
event of its path group it still produces the FileRecord and seeds
partition, inode, size and deleted. -/
theorem unknown_kind_sets_no_detector_field (p : String)
    (g l1 l2 : List RawEvent) (e : RawEvent)
    (h : ¬ upperString e.etype ∈ timestampKinds) :
    (∀ k ∈ timestampKinds,
        getField (buildTfields (l1 ++ e :: l2)) k =
          getField (buildTfields (l1 ++ l2)) k) ∧
    (∃ r, buildRecord p (e :: g) = some r ∧ r.path = p ∧
        r.partition = e.partition ∧ r.inode = e.inode ∧ r.size = e.size ∧
        r.deleted = e.deleted) := by
  constructor
  · intro k hk
    rw [buildTfields, buildTfields, buildTfieldsFrom_append,
        buildTfieldsFrom_append, buildTfieldsFrom]
    apply getField_buildTfieldsFrom_congr
    have hne : k ≠ upperString e.etype := fun hh => h (hh ▸ hk)
    cases he : e.time with
    | none => rw [applyEvent, he]
    | some t => rw [applyEvent, he, getField_setField_ne _ _ _ _ hne]
  · exact ⟨_, rfl, rfl, rfl, rfl, rfl, rfl⟩

/-- A concrete event of an unrecognised kind. -/
def fooEvent : RawEvent :=
  { time := some 7, etype := "foo", path := "p2", partition := "P0",
    inode := "6", size := "11", deleted := true }

/-- Witness for the unknown-kind theorem on the concrete event fooEvent. -/
theorem unknown_kind_sets_no_detector_field_w :
    (∀ k ∈ timestampKinds,
        getField (buildTfields ([] ++ fooEvent :: [])) k =
          getField (buildTfields ([] ++ [])) k) ∧
    (∃ r, buildRecord "p2" [fooEvent] = some r ∧ r.path = "p2" ∧
        r.partition = fooEvent.partition ∧ r.inode = fooEvent.inode ∧
        r.size = fooEvent.size ∧ r.deleted = fooEvent.deleted) :=
  unknown_kind_sets_no_detector_field "p2" [] [] [] fooEvent (by decide)
